import Mathlib

/-!
Shallow embedding of the Snakes-and-Ladders game engine from
`snake_ladder_api.py`: board generation, the roll/move turn protocol,
the computer pawn-selection heuristic and the room endpoints' error
handling, together with theorems checking the specification's claims.

Board mappings (`snakes`, `ladders`) are Python dicts keyed by decimal
strings of tile numbers; they are embedded as insertion-ordered
association lists over `Nat` (the string/int key distinction is purely
representational).  Python's `random.randint(a, b)` is embedded as
`randR a b s` applied to successive values of an abstract seed stream,
and `random.choices(values, weights)` as `choicesW` applied to a
rational sample point `r` with `0 ≤ r < total weight`.
-/

namespace SnakeLadder

def PAWNS_PER_PLAYER : Nat := 3
def WINNING_TILE : Nat := 100

structure Board where
  snakes : List (Nat × Nat)
  ladders : List (Nat × Nat)
deriving DecidableEq, Repr

/-- Dict lookup on an association list (Python `d[str(k)]` / `str(k) in d`). -/
def lookupB (m : List (Nat × Nat)) (k : Nat) : Option Nat :=
  match m with
  | [] => none
  | (a, b) :: rest => if a = k then some b else lookupB rest k

structure GameState where
  room_id : String
  status : String
  players : List String
  turn_index : Nat
  board_config : Board
  positions : List (List Nat)
  finished_pawns : List (List Bool)
  last_roll : Option Nat := none
  phase : String := "ROLL"
  winner : Option Nat := none
  log : List String := []
deriving DecidableEq, Repr

/-- Request payload: `modifier["dice_prob"]` is kept as the single field
`dice_prob` (the Python default modifier is `{"dice_prob": None}`);
weights are embedded as rationals. -/
structure ActionRequest where
  room_id : String
  player_token : String
  pawn_index : Option Int := none
  dice_prob : Option (List (Nat × Rat)) := none
deriving DecidableEq, Repr

def entityOf (g : GameState) : String :=
  if (g.players.getD g.turn_index "").startsWith "computer" then "Computer" else "Player"

/-- Python `random.randint(lo, hi)` (inclusive), driven by a seed `s`. -/
def randR (lo hi s : Nat) : Nat := lo + s % (hi + 1 - lo)

/-- Python `random.choices(vals, weights)[0]`: the first value whose
cumulative weight exceeds the sample point `r` (with the final index
capped, as `bisect` is called with `hi = len - 1`). -/
def choicesW : List Nat → List Rat → Rat → Nat
  | [], _, _ => 0
  | [v], _, _ => v
  | v :: _ :: _, [], _ => v
  | v :: v2 :: vs, w :: ws, r => if r < w then v else choicesW (v2 :: vs) ws (r - w)

-- --- process_roll_logic ---

/-- The sampled face: `random.choices` over the bias's keys and weights when a
non-empty `dice_prob` is supplied (Python truthiness: `None` and `{}` are
falsy), `random.randint(1, 6)` otherwise. -/
def rollOf (req : ActionRequest) (seed : Nat) (rq : Rat) : Nat :=
  match req.dice_prob with
  | some l => if l ≠ [] then choicesW (l.map Prod.fst) (l.map Prod.snd) rq else randR 1 6 seed
  | none => randR 1 6 seed

def process_roll_logic (game : GameState) (req : ActionRequest) (seed : Nat) (rq : Rat) :
    Except String GameState :=
  if game.status ≠ "playing" then .error "Game not active"
  else if game.players.getD game.turn_index "" ≠ req.player_token then .error "Not computer's turn"
  else if game.phase ≠ "ROLL" then .error "Already rolled, waiting for move"
  else
    let roll := rollOf req seed rq
    .ok { game with
          last_roll := some roll
          phase := "MOVE"
          log := game.log ++
            [entityOf game ++ " " ++ toString (game.turn_index + 1) ++ " rolled a " ++ toString roll] }

-- --- process_move_logic ---

/-- Snake/ladder redirection of a raw landing tile: the `snakes` dict is
consulted first, then `ladders` (mirroring the `if`/`elif` in the source). -/
def applyJump (bd : Board) (p : Nat) : Nat :=
  match lookupB bd.snakes p with
  | some f => f
  | none =>
    match lookupB bd.ladders p with
    | some f => f
    | none => p

def jumpMsg (bd : Board) (p : Nat) : String :=
  match lookupB bd.snakes p with
  | some f => "(Snake! " ++ toString p ++ "->" ++ toString f ++ ")"
  | none =>
    match lookupB bd.ladders p with
    | some f => "(Ladder! " ++ toString p ++ "->" ++ toString f ++ ")"
    | none => ""

/-- Lines 500-522 of the source: overshoot check on the raw sum, then
snake/ladder redirection, position update, and pawn-finish marking. -/
def movePhase (g : GameState) (pi r : Nat) : GameState :=
  let cp := g.turn_index
  let current_pos := (g.positions.getD cp []).getD pi 0
  let new_pos := current_pos + r
  if WINNING_TILE < new_pos then
    { g with log := g.log ++
        ["Pawn " ++ toString (pi + 1) ++ " needs exact roll. Stayed at " ++ toString current_pos ++ "."] }
  else
    let final := applyJump g.board_config new_pos
    let g1 := { g with
      positions := g.positions.set cp ((g.positions.getD cp []).set pi final)
      log := g.log ++ [entityOf g ++ " " ++ toString (cp + 1) ++ " moved Pawn " ++
        toString (pi + 1) ++ " to " ++ toString final ++ " " ++ jumpMsg g.board_config new_pos] }
    if final = WINNING_TILE then
      { g1 with
        finished_pawns := g1.finished_pawns.set cp ((g1.finished_pawns.getD cp []).set pi true)
        log := g1.log ++ [entityOf g ++ " " ++ toString (cp + 1) ++ "'s Pawn " ++
          toString (pi + 1) ++ " Finished!"] }
    else g1

/-- Lines 524-527: `if all(game.finished_pawns[current_player])`. -/
def checkWin (g : GameState) : GameState :=
  if ((g.finished_pawns.getD g.turn_index []).all id : Bool) then
    { g with
      status := "finished"
      winner := some g.turn_index
      log := g.log ++ [(entityOf g).toUpper ++ " " ++ toString (g.turn_index + 1) ++ " WINS!"] }
  else g

/-- Lines 529-533: flip the turn unless the game just finished or the roll was 6. -/
def advanceTurn (g : GameState) : GameState :=
  if g.status ≠ "finished" then
    if g.last_roll ≠ some 6 then { g with turn_index := 1 - g.turn_index }
    else { g with log := g.log ++
      [entityOf g ++ " " ++ toString (g.turn_index + 1) ++ " rolled 6, goes again!"] }
  else g

def moveCore (g : GameState) (pi r : Nat) : GameState :=
  let g3 := advanceTurn (checkWin (movePhase g pi r))
  { g3 with phase := "ROLL", last_roll := none }

def process_move_logic (game : GameState) (req : ActionRequest) : Except String GameState :=
  match req.pawn_index with
  | none => .error "Invalid request: pawn_index missing"
  | some pidx =>
    if game.phase ≠ "MOVE" then .error "Must roll first"
    else if game.players.getD game.turn_index "" ≠ req.player_token then .error "Not computer's turn"
    else if pidx < 0 ∨ (PAWNS_PER_PLAYER : Int) ≤ pidx then .error "Invalid pawn"
    else if (game.finished_pawns.getD game.turn_index []).getD pidx.toNat false then
      .error "Pawn already finished"
    else
      match game.last_roll with
      | none => .error "TypeError: unsupported operand type for +: int and NoneType"
      | some roll => .ok (moveCore game pidx.toNat roll)

-- --- generate_board ---

def keysOf (m : List (Nat × Nat)) : List Nat := m.map Prod.fst
def valsOf (m : List (Nat × Nat)) : List Nat := m.map Prod.snd

/-- Acceptance test for a candidate ladder, in the source's order of checks. -/
def ladderOk (ladders : List (Nat × Nat)) (start e : Nat) : Prop :=
  start ∉ keysOf ladders ∧ e ∉ valsOf ladders ∧ start ∉ valsOf ladders ∧ e ∉ keysOf ladders

instance (L : List (Nat × Nat)) (s e : Nat) : Decidable (ladderOk L s e) :=
  inferInstanceAs (Decidable (_ ∧ _ ∧ _ ∧ _))

/-- Acceptance test for a candidate snake (general or danger), in the
source's order of checks. -/
def snakeOk (ladders snakes : List (Nat × Nat)) (start e : Nat) : Prop :=
  start ∉ keysOf ladders ∧ start ∉ keysOf snakes ∧ start ∉ valsOf ladders ∧
  e ∉ keysOf ladders ∧ e ∉ valsOf snakes ∧ start ∉ valsOf snakes ∧ e ∉ keysOf snakes

instance (L S : List (Nat × Nat)) (s e : Nat) : Decidable (snakeOk L S s e) :=
  inferInstanceAs (Decidable (_ ∧ _ ∧ _ ∧ _ ∧ _ ∧ _ ∧ _))

/-- The `while len(ladders) < 5` rejection-sampling loop; `fuel` bounds the
number of iterations of the embedding (the Python loop is unbounded), and
`i` indexes the seed stream.  Returns the table and the next seed index. -/
def genLadders (stream : Nat → Nat) : Nat → Nat → List (Nat × Nat) →
    Option (List (Nat × Nat) × Nat)
  | 0, _, _ => none
  | fuel + 1, i, ladders =>
    if 5 ≤ ladders.length then some (ladders, i)
    else
      let start := randR 2 80 (stream i)
      let e := randR (start + 10) 94 (stream (i + 1))
      genLadders stream fuel (i + 2)
        (if ladderOk ladders start e then ladders ++ [(start, e)] else ladders)

/-- The `while len(snakes) < 4` rejection-sampling loop. -/
def genSnakes (stream : Nat → Nat) (ladders : List (Nat × Nat)) : Nat → Nat → List (Nat × Nat) →
    Option (List (Nat × Nat) × Nat)
  | 0, _, _ => none
  | fuel + 1, i, snakes =>
    if 4 ≤ snakes.length then some (snakes, i)
    else
      let start := randR 15 97 (stream i)
      let e := randR 2 (start - 10) (stream (i + 1))
      genSnakes stream ladders fuel (i + 2)
        (if snakeOk ladders snakes start e then snakes ++ [(start, e)] else snakes)

/-- Lines 119-131: the "danger" snake is drawn once and inserted only if the
acceptance test passes — a single `if`, not a loop. -/
def addDangerSnake (stream : Nat → Nat) (i : Nat) (ladders snakes : List (Nat × Nat)) :
    List (Nat × Nat) :=
  let start := randR 98 99 (stream i)
  let e := randR 50 (start - 10) (stream (i + 1))
  if snakeOk ladders snakes start e then snakes ++ [(start, e)] else snakes

def generate_board (stream : Nat → Nat) (fuel : Nat) : Option Board :=
  match genLadders stream fuel 0 [] with
  | none => none
  | some (ladders, i) =>
    match genSnakes stream ladders fuel i [] with
    | none => none
    | some (snakes, j) => some { snakes := addDangerSnake stream j ladders snakes, ladders }

-- --- create / join ---

def create_game (room_id player_token : String) (bd : Board) : GameState :=
  { room_id
    status := "waiting"
    players := [player_token]
    turn_index := 0
    board_config := bd
    positions := [List.replicate PAWNS_PER_PLAYER 0, List.replicate PAWNS_PER_PLAYER 0]
    finished_pawns := [List.replicate PAWNS_PER_PLAYER false, List.replicate PAWNS_PER_PLAYER false] }

def join_game (game : GameState) (player_token : String) : Except String GameState :=
  if 2 ≤ game.players.length then .error "Room is full"
  else .ok { game with
    players := game.players ++ [player_token]
    status := "playing"
    log := game.log ++ ["Player 2 joined. Game Start!"] }

-- --- computer_turn pawn selection (lines 325-401) ---

/-- Per-pawn priority score from the move-evaluation loop of `computer_turn`
(difficulties normal/hard/extreme). -/
def pawnPriority (game : GameState) (last_roll pawn_idx : Nat) : Int :=
  let player_index := 1
  let current_positions := game.positions.getD player_index []
  let current_pos := current_positions.getD pawn_idx 0
  let new_pos := current_pos + last_roll
  if WINNING_TILE < new_pos then 0
  else
    let base : Int :=
      if (lookupB game.board_config.snakes new_pos).isSome then -100
      else if (lookupB game.board_config.ladders new_pos).isSome then 100
      else 0
    let finished_count := ((game.finished_pawns.getD player_index []).filter id).length
    let all_near_end := ((List.range current_positions.length).filter
      (fun i => !((game.finished_pawns.getD player_index []).getD i false) || i == pawn_idx)).all
      (fun i => 90 ≤ current_positions.getD i 0)
    if new_pos = WINNING_TILE then
      if finished_count = 0 ∧ all_near_end = false then base - 200 else base + 300
    else if 90 ≤ new_pos ∧ current_pos < 90 then base + 20
    else base

/-- The selection loop of `computer_turn` over the unfinished pawns, with its
running `(max_priority, pawn_to_move)` accumulator started at `(-1, 0)`
(Python leaves `pawn_to_move` unassigned before the loop; every priority is a
multiple of 20, so the first iteration always takes the `>` or the final
`else` branch, both of which assign it). -/
def selectPawn (game : GameState) (last_roll : Nat) : Nat :=
  let player_index := 1
  let current_positions := game.positions.getD player_index []
  let available_pawns := (List.range PAWNS_PER_PLAYER).filter
    (fun pi => !((game.finished_pawns.getD player_index []).getD pi false))
  if available_pawns.isEmpty then 0
  else
    (available_pawns.foldl (fun acc pawn_idx =>
      let max_priority := acc.1
      let pawn_to_move := acc.2
      let priority := pawnPriority game last_roll pawn_idx
      if max_priority < priority then (priority, pawn_idx)
      else if priority = max_priority ∧ pawn_idx ∈ available_pawns then
        if current_positions.getD pawn_idx 0 < current_positions.getD pawn_to_move 0 then
          (max_priority, pawn_idx)
        else (max_priority, pawn_to_move)
      else (max_priority, 0)) ((-1 : Int), 0)).2

-- --- endpoints (room lookup and error reporting) ---

/-- Observable outcome of one HTTP endpoint call: a returned state, an
`HTTPException(code, detail)`, or an unhandled Python exception. -/
inductive ApiOutcome where
  | ok (g : GameState)
  | httpError (code : Nat) (detail : String)
  | crash (msg : String)
deriving DecidableEq, Repr

/-- The `/state/{room_id}` endpoint.  The source reads `game.players` (and
possibly runs the computer turn, abstracted here as `computerTurn`) before
its `if not game` check, so a missing room hits the attribute access on
`None` first. -/
def get_state (computerTurn : GameState → GameState) (load : Option GameState) : ApiOutcome :=
  match load with
  | none => ApiOutcome.crash "AttributeError: NoneType object has no attribute players"
  | some game =>
    let game1 :=
      if 1 < game.players.length ∧
          (game.players.getD 1 "").startsWith "computer" ∧ game.turn_index = 1 then
        computerTurn game
      else game
    ApiOutcome.ok game1

/-- The `/roll` endpoint: room lookup, then `process_roll_logic` with
`ValueError` mapped to HTTP 400. -/
def roll_dice (load : Option GameState) (req : ActionRequest) (seed : Nat) (rq : Rat) :
    ApiOutcome :=
  match load with
  | none => ApiOutcome.httpError 404 "Room not found"
  | some game =>
    match process_roll_logic game req seed rq with
    | .error e => ApiOutcome.httpError 400 e
    | .ok g => ApiOutcome.ok g

/-- The `/move` endpoint. -/
def move_pawn (load : Option GameState) (req : ActionRequest) : ApiOutcome :=
  match load with
  | none => ApiOutcome.httpError 404 "Room not found"
  | some game =>
    match process_move_logic game req with
    | .error e => ApiOutcome.httpError 400 e
    | .ok g => ApiOutcome.ok g

-- --- well-formedness and the finished/position invariant ---

def WF (g : GameState) : Prop :=
  g.turn_index < 2 ∧
  g.positions.length = 2 ∧ g.finished_pawns.length = 2 ∧
  (∀ p < 2, (g.positions.getD p []).length = PAWNS_PER_PLAYER) ∧
  (∀ p < 2, (g.finished_pawns.getD p []).length = PAWNS_PER_PLAYER)

def FinishedInv (g : GameState) : Prop :=
  ∀ p < 2, ∀ i < PAWNS_PER_PLAYER,
    ((g.finished_pawns.getD p []).getD i false = true ↔ (g.positions.getD p []).getD i 0 = 100)

def Inv (g : GameState) : Prop := WF g ∧ FinishedInv g

instance (g : GameState) : Decidable (WF g) := by
  unfold WF; infer_instance

instance (g : GameState) : Decidable (FinishedInv g) := by
  unfold FinishedInv; infer_instance

instance (g : GameState) : Decidable (Inv g) :=
  inferInstanceAs (Decidable (_ ∧ _))

/-- Game states reachable from room creation through join and successful
roll/move actions. -/
inductive Reachable : GameState → Prop where
  | create (rid tok : String) (bd : Board) : Reachable (create_game rid tok bd)
  | join (g : GameState) (tok : String) (g' : GameState) :
      Reachable g → join_game g tok = .ok g' → Reachable g'
  | roll (g : GameState) (req : ActionRequest) (seed : Nat) (rq : Rat) (g' : GameState) :
      Reachable g → process_roll_logic g req seed rq = .ok g' → Reachable g'
  | move (g : GameState) (req : ActionRequest) (g' : GameState) :
      Reachable g → process_move_logic g req = .ok g' → Reachable g'

-- --- derived predicates used in claim statements ---

/-- Raw landing tile of a move: current position plus the roll, before any
snake/ladder mapping is consulted. -/
def rawLanding (g : GameState) (pi r : Nat) : Nat :=
  (g.positions.getD g.turn_index []).getD pi 0 + r

/-- Structural invariants of a generated board: no tile is a start in both
mappings, snakes go strictly down, ladders strictly up, and no end tile of
either mapping is a start tile of either mapping. -/
def boardInv (b : Board) : Prop :=
  (∀ t ∈ keysOf b.snakes, t ∉ keysOf b.ladders) ∧
  (∀ p ∈ b.snakes, p.2 < p.1) ∧
  (∀ p ∈ b.ladders, p.1 < p.2) ∧
  (∀ t ∈ valsOf b.snakes, t ∉ keysOf b.snakes ∧ t ∉ keysOf b.ladders) ∧
  (∀ t ∈ valsOf b.ladders, t ∉ keysOf b.snakes ∧ t ∉ keysOf b.ladders)

instance (b : Board) : Decidable (boardInv b) := by
  unfold boardInv; infer_instance

/-- Loop invariant of the ladder-generation loop. -/
def LadInv (L : List (Nat × Nat)) : Prop :=
  (∀ p ∈ L, p.1 < p.2) ∧ (∀ t ∈ valsOf L, t ∉ keysOf L)

/-- Loop invariant of the snake-generation loop (including the danger step),
relative to the fixed ladder table. -/
def SnakeInv (L S : List (Nat × Nat)) : Prop :=
  (∀ p ∈ S, p.2 < p.1) ∧ (∀ t ∈ keysOf S, t ∉ keysOf L) ∧
  (∀ t ∈ valsOf S, t ∉ keysOf S ∧ t ∉ keysOf L) ∧ (∀ t ∈ keysOf S, t ∉ valsOf L)

-- --- concrete inputs used by counterexamples and witnesses ---

/-- Seed stream on which every ladder and general-snake candidate is accepted
first try, but the danger-snake candidate is (98, 50) with 50 already a snake
start, so its acceptance test fails. -/
def streamC6 (n : Nat) : Nat :=
  [0, 0, 1, 0, 2, 0, 3, 0, 4, 0, 15, 18, 25, 23, 35, 33, 45, 43, 0, 0].getD n 0

def bC6 : Board :=
  { snakes := [(30, 20), (40, 25), (50, 35), (60, 45)]
    ladders := [(2, 12), (3, 13), (4, 14), (5, 15), (6, 16)] }

/-- Seed stream on which every candidate, the danger snake included, is
accepted first try. -/
def streamC7 (n : Nat) : Nat :=
  [8, 0, 9, 0, 10, 0, 11, 0, 12, 0, 15, 13, 25, 14, 35, 15, 45, 16, 1, 5].getD n 0

def bC7 : Board :=
  { snakes := [(30, 15), (40, 16), (50, 17), (60, 18), (99, 55)]
    ladders := [(10, 20), (11, 21), (12, 22), (13, 23), (14, 24)] }

/-- Computer seat (player index 1) with pawns at 10, 20, 30, a rolled 2, and a
ladder at tile 22: pawn 1 would climb the ladder (priority 100), pawns 0 and 2
land on plain tiles (priority 0). -/
def gC5 : GameState :=
  { room_id := "R", status := "playing", players := ["p", "computer_normal"],
    turn_index := 1, board_config := { snakes := [], ladders := [(22, 50)] },
    positions := [[0, 0, 0], [10, 20, 30]],
    finished_pawns := [[false, false, false], [false, false, false]],
    last_roll := some 2, phase := "MOVE" }

def gW1 : GameState :=
  { room_id := "R", status := "playing", players := ["a", "b"],
    turn_index := 0, board_config := { snakes := [], ladders := [] },
    positions := [[97, 100, 100], [0, 0, 0]],
    finished_pawns := [[false, true, true], [false, false, false]],
    last_roll := some 3, phase := "MOVE" }

def reqW1 : ActionRequest := { room_id := "R", player_token := "a", pawn_index := some 0 }

def gW1' : GameState :=
  match process_move_logic gW1 reqW1 with
  | .ok g => g
  | .error _ => gW1

def gW2 : GameState :=
  { room_id := "R", status := "playing", players := ["a", "b"],
    turn_index := 0, board_config := { snakes := [], ladders := [] },
    positions := [[97, 1, 2], [0, 0, 0]],
    finished_pawns := [[false, false, false], [false, false, false]],
    last_roll := some 6, phase := "MOVE" }

def reqW2 : ActionRequest := { room_id := "R", player_token := "a", pawn_index := some 0 }

def gW2' : GameState :=
  match process_move_logic gW2 reqW2 with
  | .ok g => g
  | .error _ => gW2

def gW3 : GameState :=
  { room_id := "R", status := "playing", players := ["a", "b"],
    turn_index := 0, board_config := { snakes := [], ladders := [] },
    positions := [[10, 1, 2], [0, 0, 0]],
    finished_pawns := [[false, false, false], [false, false, false]],
    last_roll := some 3, phase := "MOVE" }

def reqW3 : ActionRequest := { room_id := "R", player_token := "a", pawn_index := some 0 }

def gW3' : GameState :=
  match process_move_logic gW3 reqW3 with
  | .ok g => g
  | .error _ => gW3

/-- Scenario from the spec: `snakes = {"20": 5}`, pawn at 18, roll 2. -/
def gW4 : GameState :=
  { room_id := "R", status := "playing", players := ["a", "b"],
    turn_index := 0, board_config := { snakes := [(20, 5)], ladders := [] },
    positions := [[18, 0, 0], [0, 0, 0]],
    finished_pawns := [[false, false, false], [false, false, false]],
    last_roll := some 2, phase := "MOVE" }

def reqW4 : ActionRequest := { room_id := "R", player_token := "a", pawn_index := some 0 }

def gW4' : GameState :=
  match process_move_logic gW4 reqW4 with
  | .ok g => g
  | .error _ => gW4

def gW8 : GameState :=
  { room_id := "R", status := "playing", players := ["a", "b"],
    turn_index := 0, board_config := { snakes := [], ladders := [] },
    positions := [[0, 0, 0], [0, 0, 0]],
    finished_pawns := [[false, false, false], [false, false, false]],
    phase := "ROLL" }

def reqW8 : ActionRequest :=
  { room_id := "R", player_token := "a", pawn_index := none,
    dice_prob := some [(2, 1), (5, 3)] }

def gW8' : GameState :=
  match process_roll_logic gW8 reqW8 0 2 with
  | .ok g => g
  | .error _ => gW8

def reqW9 : ActionRequest := { room_id := "NOROOM", player_token := "t" }

def bdW10 : Board := { snakes := [], ladders := [] }

-- --- list helper lemmas ---

theorem getD_set_eq {α : Type} : ∀ (l : List α) (i : Nat) (a d : α), i < l.length →
    (l.set i a).getD i d = a
  | _ :: _, 0, _, _, _ => rfl
  | _ :: xs, i + 1, a, d, h => getD_set_eq xs i a d (Nat.lt_of_succ_lt_succ h)

theorem getD_set_ne {α : Type} : ∀ (l : List α) (i j : Nat) (a d : α), i ≠ j →
    (l.set i a).getD j d = l.getD j d
  | [], _, _, _, _, _ => rfl
  | _ :: _, 0, 0, _, _, h => absurd rfl h
  | _ :: _, 0, _ + 1, _, _, _ => rfl
  | _ :: _, _ + 1, 0, _, _, _ => rfl
  | _ :: xs, i + 1, j + 1, a, d, h =>
    getD_set_ne xs i j a d (fun e => h (by rw [e]))

theorem all_getD (l : List Bool) : l.all id = true ↔ ∀ i < l.length, l.getD i false = true := by
  induction l with
  | nil => simp
  | cons b t ih =>
    simp only [List.all_cons, Bool.and_eq_true, id_eq, List.length_cons]
    constructor
    · rintro ⟨hb, ht⟩ i hi
      cases i with
      | zero => exact hb
      | succ j => exact (ih.mp ht) j (Nat.lt_of_succ_lt_succ hi)
    · intro h
      exact ⟨h 0 (Nat.succ_pos _), ih.mpr (fun j hj => h (j + 1) (Nat.succ_lt_succ hj))⟩

theorem randR_bounds (lo hi s : Nat) (h : lo ≤ hi) :
    lo ≤ randR lo hi s ∧ randR lo hi s ≤ hi := by
  unfold randR
  have hm : s % (hi + 1 - lo) < hi + 1 - lo := Nat.mod_lt s (by omega)
  omega

-- --- field-preservation lemmas for the move pipeline ---

theorem movePhase_status (g : GameState) (pi r : Nat) : (movePhase g pi r).status = g.status := by
  unfold movePhase
  dsimp only
  split
  · rfl
  · split <;> rfl

theorem movePhase_turn (g : GameState) (pi r : Nat) :
    (movePhase g pi r).turn_index = g.turn_index := by
  unfold movePhase
  dsimp only
  split
  · rfl
  · split <;> rfl

theorem movePhase_last_roll (g : GameState) (pi r : Nat) :
    (movePhase g pi r).last_roll = g.last_roll := by
  unfold movePhase
  dsimp only
  split
  · rfl
  · split <;> rfl

theorem checkWin_positions (g : GameState) : (checkWin g).positions = g.positions := by
  unfold checkWin; split <;> rfl

theorem checkWin_finished (g : GameState) : (checkWin g).finished_pawns = g.finished_pawns := by
  unfold checkWin; split <;> rfl

theorem checkWin_turn (g : GameState) : (checkWin g).turn_index = g.turn_index := by
  unfold checkWin; split <;> rfl

theorem checkWin_last_roll (g : GameState) : (checkWin g).last_roll = g.last_roll := by
  unfold checkWin; split <;> rfl

theorem advanceTurn_positions (g : GameState) : (advanceTurn g).positions = g.positions := by
  unfold advanceTurn; split
  · split <;> rfl
  · rfl

theorem advanceTurn_finished (g : GameState) :
    (advanceTurn g).finished_pawns = g.finished_pawns := by
  unfold advanceTurn; split
  · split <;> rfl
  · rfl

theorem advanceTurn_status (g : GameState) : (advanceTurn g).status = g.status := by
  unfold advanceTurn; split
  · split <;> rfl
  · rfl

theorem advanceTurn_winner (g : GameState) : (advanceTurn g).winner = g.winner := by
  unfold advanceTurn; split
  · split <;> rfl
  · rfl

theorem movePhase_overshoot (g : GameState) (pi r : Nat)
    (h : WINNING_TILE < (g.positions.getD g.turn_index []).getD pi 0 + r) :
    (movePhase g pi r).positions = g.positions ∧
    (movePhase g pi r).finished_pawns = g.finished_pawns := by
  unfold movePhase
  dsimp only
  rw [if_pos h]
  exact ⟨rfl, rfl⟩

theorem movePhase_normal_pos (g : GameState) (pi r : Nat)
    (h : ¬ WINNING_TILE < (g.positions.getD g.turn_index []).getD pi 0 + r) :
    (movePhase g pi r).positions =
      g.positions.set g.turn_index ((g.positions.getD g.turn_index []).set pi
        (applyJump g.board_config ((g.positions.getD g.turn_index []).getD pi 0 + r))) := by
  unfold movePhase
  dsimp only
  rw [if_neg h]
  split <;> rfl

theorem movePhase_normal_fin (g : GameState) (pi r : Nat)
    (h : ¬ WINNING_TILE < (g.positions.getD g.turn_index []).getD pi 0 + r) :
    (movePhase g pi r).finished_pawns =
      if applyJump g.board_config ((g.positions.getD g.turn_index []).getD pi 0 + r) =
          WINNING_TILE then
        g.finished_pawns.set g.turn_index ((g.finished_pawns.getD g.turn_index []).set pi true)
      else g.finished_pawns := by
  unfold movePhase
  dsimp only
  rw [if_neg h]
  split <;> simp_all

theorem checkWin_of_all (g : GameState)
    (h : (g.finished_pawns.getD g.turn_index []).all id = true) :
    (checkWin g).status = "finished" ∧ (checkWin g).winner = some g.turn_index := by
  unfold checkWin
  rw [if_pos h]
  exact ⟨rfl, rfl⟩

theorem checkWin_of_not_all (g : GameState)
    (h : ¬ (g.finished_pawns.getD g.turn_index []).all id = true) :
    checkWin g = g := by
  unfold checkWin
  rw [if_neg h]

theorem advanceTurn_of_finished (g : GameState) (h : g.status = "finished") :
    advanceTurn g = g := by
  unfold advanceTurn
  rw [if_neg (by simp [h])]

theorem advanceTurn_turn_of_not6 (g : GameState) (h : g.status ≠ "finished")
    (h6 : g.last_roll ≠ some 6) : (advanceTurn g).turn_index = 1 - g.turn_index := by
  unfold advanceTurn
  rw [if_pos h, if_pos h6]

theorem advanceTurn_turn_of_6 (g : GameState) (h : g.status ≠ "finished")
    (h6 : g.last_roll = some 6) : (advanceTurn g).turn_index = g.turn_index := by
  unfold advanceTurn
  rw [if_pos h, if_neg (by simp [h6])]

-- --- elimination lemma for successful rolls ---

theorem roll_ok_elim (g : GameState) (req : ActionRequest) (seed : Nat) (rq : Rat)
    (g' : GameState) (h : process_roll_logic g req seed rq = .ok g') :
    g.status = "playing" ∧ g.players.getD g.turn_index "" = req.player_token ∧
    g.phase = "ROLL" ∧
    g' = { g with
           last_roll := some (rollOf req seed rq)
           phase := "MOVE"
           log := g.log ++ [entityOf g ++ " " ++ toString (g.turn_index + 1) ++ " rolled a " ++
             toString (rollOf req seed rq)] } := by
  unfold process_roll_logic at h
  split at h
  · exact (Except.noConfusion h)
  next h1 =>
    split at h
    · exact (Except.noConfusion h)
    next h2 =>
      split at h
      · exact (Except.noConfusion h)
      next h3 =>
        injection h with h
        exact ⟨not_not.mp h1, not_not.mp h2, not_not.mp h3, h.symm⟩

-- --- elimination lemma for successful moves ---

theorem move_ok_elim (g : GameState) (req : ActionRequest) (g' : GameState)
    (h : process_move_logic g req = .ok g') :
    ∃ pidx roll, req.pawn_index = some pidx ∧ g.phase = "MOVE" ∧
      g.players.getD g.turn_index "" = req.player_token ∧
      ¬(pidx < 0 ∨ (PAWNS_PER_PLAYER : Int) ≤ pidx) ∧
      (g.finished_pawns.getD g.turn_index []).getD pidx.toNat false = false ∧
      g.last_roll = some roll ∧ g' = moveCore g pidx.toNat roll := by
  unfold process_move_logic at h
  cases hp : req.pawn_index with
  | none => rw [hp] at h; exact (Except.noConfusion h)
  | some pidx =>
    rw [hp] at h
    dsimp only at h
    split at h
    · exact (Except.noConfusion h)
    next h1 =>
      split at h
      · exact (Except.noConfusion h)
      next h2 =>
        split at h
        · exact (Except.noConfusion h)
        next h3 =>
          split at h
          · exact (Except.noConfusion h)
          next h4 =>
            split at h
            next hr => exact (Except.noConfusion h)
            next roll hr =>
              injection h with h
              exact ⟨pidx, roll, rfl, not_not.mp h1, not_not.mp h2, h3,
                by simpa using h4, hr, h.symm⟩

-- --- invariant preservation ---

theorem wf_movePhase (g : GameState) (pi r : Nat) (hwf : WF g) : WF (movePhase g pi r) := by
  obtain ⟨ht, hp2, hf2, hrowp, hrowf⟩ := hwf
  by_cases hover : WINNING_TILE < (g.positions.getD g.turn_index []).getD pi 0 + r
  · obtain ⟨e1, e2⟩ := movePhase_overshoot g pi r hover
    exact ⟨by rw [movePhase_turn]; exact ht, by rw [e1]; exact hp2, by rw [e2]; exact hf2,
      by rw [e1]; exact hrowp, by rw [e2]; exact hrowf⟩
  · refine ⟨by rw [movePhase_turn]; exact ht, ?_, ?_, ?_, ?_⟩
    · rw [movePhase_normal_pos g pi r hover]; simp [hp2]
    · rw [movePhase_normal_fin g pi r hover]; split <;> simp [hf2]
    · rw [movePhase_normal_pos g pi r hover]
      intro p hp
      by_cases hpcp : p = g.turn_index
      · subst hpcp
        rw [getD_set_eq g.positions _ _ _ (by omega), List.length_set]
        exact hrowp _ hp
      · rw [getD_set_ne g.positions _ _ _ _ (fun e => hpcp e.symm)]
        exact hrowp p hp
    · rw [movePhase_normal_fin g pi r hover]
      split
      · intro p hp
        by_cases hpcp : p = g.turn_index
        · subst hpcp
          rw [getD_set_eq g.finished_pawns _ _ _ (by omega), List.length_set]
          exact hrowf _ hp
        · rw [getD_set_ne g.finished_pawns _ _ _ _ (fun e => hpcp e.symm)]
          exact hrowf p hp
      · exact hrowf

theorem finishedInv_movePhase (g : GameState) (pi r : Nat) (hInv : Inv g)
    (hpi : pi < PAWNS_PER_PLAYER)
    (hfin : (g.finished_pawns.getD g.turn_index []).getD pi false = false) :
    FinishedInv (movePhase g pi r) := by
  obtain ⟨⟨ht, hp2, hf2, hrowp, hrowf⟩, hinv⟩ := hInv
  by_cases hover : WINNING_TILE < (g.positions.getD g.turn_index []).getD pi 0 + r
  · obtain ⟨e1, e2⟩ := movePhase_overshoot g pi r hover
    intro p hp i hi
    rw [e1, e2]
    exact hinv p hp i hi
  · have hcpP : g.turn_index < g.positions.length := by omega
    have hcpF : g.turn_index < g.finished_pawns.length := by omega
    have hpiP : pi < (g.positions.getD g.turn_index []).length := by
      rw [hrowp _ ht]; exact hpi
    have hpiF : pi < (g.finished_pawns.getD g.turn_index []).length := by
      rw [hrowf _ ht]; exact hpi
    intro p hp i hi
    rw [movePhase_normal_pos g pi r hover, movePhase_normal_fin g pi r hover]
    by_cases hpcp : p = g.turn_index
    · subst hpcp
      rw [getD_set_eq g.positions _ _ _ hcpP]
      by_cases hip : i = pi
      · subst hip
        rw [getD_set_eq (g.positions.getD g.turn_index []) _ _ _ hpiP]
        by_cases hfinal :
            applyJump g.board_config ((g.positions.getD g.turn_index []).getD i 0 + r) =
              WINNING_TILE
        · rw [if_pos hfinal, getD_set_eq g.finished_pawns _ _ _ hcpF,
            getD_set_eq (g.finished_pawns.getD g.turn_index []) _ _ _ hpiF]
          exact ⟨fun _ => hfinal, fun _ => rfl⟩
        · rw [if_neg hfinal, hfin]
          exact ⟨fun h => Bool.noConfusion h, fun h => absurd h hfinal⟩
      · rw [getD_set_ne (g.positions.getD g.turn_index []) _ _ _ _ (fun e => hip e.symm)]
        split
        · rw [getD_set_eq g.finished_pawns _ _ _ hcpF,
            getD_set_ne (g.finished_pawns.getD g.turn_index []) _ _ _ _ (fun e => hip e.symm)]
          exact hinv _ hp i hi
        · exact hinv _ hp i hi
    · rw [getD_set_ne g.positions _ _ _ _ (fun e => hpcp e.symm)]
      split
      · rw [getD_set_ne g.finished_pawns _ _ _ _ (fun e => hpcp e.symm)]
        exact hinv p hp i hi
      · exact hinv p hp i hi

theorem inv_checkWin (g : GameState) (hInv : Inv g) : Inv (checkWin g) := by
  unfold checkWin
  split
  · exact hInv
  · exact hInv

theorem inv_advanceTurn (g : GameState) (hInv : Inv g) : Inv (advanceTurn g) := by
  obtain ⟨⟨ht, h2, h3, h4, h5⟩, hf⟩ := hInv
  unfold advanceTurn
  split
  · split
    · exact ⟨⟨by show 1 - g.turn_index < 2; omega, h2, h3, h4, h5⟩, hf⟩
    · exact ⟨⟨by show g.turn_index < 2; omega, h2, h3, h4, h5⟩, hf⟩
  · exact ⟨⟨ht, h2, h3, h4, h5⟩, hf⟩

theorem inv_moveCore (g : GameState) (pi r : Nat) (hInv : Inv g)
    (hpi : pi < PAWNS_PER_PLAYER)
    (hfin : (g.finished_pawns.getD g.turn_index []).getD pi false = false) :
    Inv (moveCore g pi r) := by
  have h1 : Inv (movePhase g pi r) :=
    ⟨wf_movePhase g pi r hInv.1, finishedInv_movePhase g pi r hInv hpi hfin⟩
  exact inv_advanceTurn _ (inv_checkWin _ h1)

theorem inv_create (rid tok : String) (bd : Board) : Inv (create_game rid tok bd) := by
  refine ⟨⟨by simp only [create_game]; omega, rfl, rfl, ?_, ?_⟩, ?_⟩
  · intro p hp
    interval_cases p <;> rfl
  · intro p hp
    interval_cases p <;> rfl
  · intro p hp i hi
    unfold PAWNS_PER_PLAYER at hi
    interval_cases p <;> interval_cases i <;> simp [create_game, List.replicate]

theorem inv_join (g : GameState) (tok : String) (g' : GameState)
    (h : join_game g tok = .ok g') (hInv : Inv g) : Inv g' := by
  unfold join_game at h
  split at h
  · exact (Except.noConfusion h)
  · injection h with h
    rw [← h]
    exact hInv

theorem inv_roll (g : GameState) (req : ActionRequest) (seed : Nat) (rq : Rat)
    (g' : GameState) (h : process_roll_logic g req seed rq = .ok g') (hInv : Inv g) : Inv g' := by
  obtain ⟨_, _, _, hg⟩ := roll_ok_elim g req seed rq g' h
  rw [hg]
  exact hInv

theorem inv_move (g : GameState) (req : ActionRequest) (g' : GameState)
    (h : process_move_logic g req = .ok g') (hInv : Inv g) : Inv g' := by
  obtain ⟨pidx, roll, _, _, _, hrange, hfin, _, hg⟩ := move_ok_elim g req g' h
  rw [hg]
  exact inv_moveCore g pidx.toNat roll hInv (by unfold PAWNS_PER_PLAYER at *; omega) hfin

-- --- weighted-sampling lemmas ---

theorem choicesW_mem : ∀ (vals : List Nat) (ws : List Rat) (r : Rat), vals ≠ [] →
    choicesW vals ws r ∈ vals
  | [], _, _, h => absurd rfl h
  | [_], _, _, _ => List.mem_singleton.mpr rfl
  | _ :: _ :: _, [], _, _ => List.mem_cons_self _ _
  | v :: v2 :: vs, w :: ws, r, _ => by
    unfold choicesW
    split
    · exact List.mem_cons_self _ _
    · exact List.mem_cons_of_mem _ (choicesW_mem (v2 :: vs) ws (r - w) (by simp))

theorem take_sum_nonneg (ws : List Rat) (n : Nat) (h : ∀ w ∈ ws, 0 ≤ w) :
    0 ≤ (ws.take n).sum :=
  List.sum_nonneg (fun w hw => h w (List.take_subset n ws hw))

theorem choicesW_interval : ∀ (vals : List Nat) (ws : List Rat) (i : Nat) (r : Rat),
    i < vals.length → ws.length = vals.length → (∀ w ∈ ws, 0 ≤ w) →
    (ws.take i).sum ≤ r → r < (ws.take (i + 1)).sum →
    choicesW vals ws r = vals.getD i 0
  | [], _, i, _, hi, _, _, _, _ => absurd hi (by simp)
  | [v], ws, 0, r, _, _, _, _, _ => rfl
  | [v], ws, i + 1, r, hi, _, _, _, _ => absurd hi (by simp)
  | v :: v2 :: vs, [], i, r, _, hlen, _, _, _ => absurd hlen (by simp)
  | v :: v2 :: vs, w :: ws, 0, r, _, _, _, _, hhi => by
    unfold choicesW
    rw [if_pos (by simpa using hhi)]
    rfl
  | v :: v2 :: vs, w :: ws, i + 1, r, hi, hlen, hnn, hlo, hhi => by
    unfold choicesW
    have hw0 : (0 : Rat) ≤ w := hnn w (List.mem_cons_self _ _)
    have hts : 0 ≤ (ws.take i).sum :=
      take_sum_nonneg ws i (fun x hx => hnn x (List.mem_cons_of_mem _ hx))
    have hlo' : (ws.take i).sum ≤ r - w := by
      simp only [List.take_succ_cons, List.sum_cons] at hlo
      linarith
    have hge : ¬ r < w := by
      simp only [List.take_succ_cons, List.sum_cons] at hlo
      push_neg
      linarith
    rw [if_neg hge]
    exact choicesW_interval (v2 :: vs) ws i (r - w)
      (Nat.lt_of_succ_lt_succ hi) (by simpa using hlen)
      (fun x hx => hnn x (List.mem_cons_of_mem _ hx)) hlo'
      (by simp only [List.take_succ_cons, List.sum_cons] at hhi; linarith)

theorem randR_one_six (seed f : Nat) (h1 : 1 ≤ f) (h6 : f ≤ 6) :
    randR 1 6 seed = f ↔ seed % 6 = f - 1 := by
  unfold randR
  omega

-- --- board-generator invariant lemmas ---

theorem ladInv_insert (L : List (Nat × Nat)) (s e : Nat) (hInv : LadInv L)
    (hok : ladderOk L s e) (hlt : s < e) : LadInv (L ++ [(s, e)]) := by
  obtain ⟨h1, h2⟩ := hInv
  obtain ⟨hk, hv, hsv, hek⟩ := hok
  constructor
  · intro p hp
    rcases List.mem_append.mp hp with h | h
    · exact h1 p h
    · rw [List.mem_singleton.mp h]; exact hlt
  · intro t ht
    simp only [valsOf, keysOf, List.map_append, List.mem_append, List.map_cons, List.map_nil,
      List.mem_singleton] at ht ⊢
    rcases ht with h | h
    · push_neg
      exact ⟨fun hc => (h2 t h) hc, fun hc => hsv (by rw [← hc]; exact h)⟩
    · subst h
      push_neg
      exact ⟨fun hc => hek hc, fun hc => absurd hc (by omega)⟩

theorem snakeInv_insert (L S : List (Nat × Nat)) (s e : Nat) (hS : SnakeInv L S)
    (hok : snakeOk L S s e) (hlt : e < s) : SnakeInv L (S ++ [(s, e)]) := by
  obtain ⟨h1, h2, h3, h4⟩ := hS
  obtain ⟨k1, k2, k3, k4, k5, k6, k7⟩ := hok
  refine ⟨?_, ?_, ?_, ?_⟩
  · intro p hp
    rcases List.mem_append.mp hp with h | h
    · exact h1 p h
    · rw [List.mem_singleton.mp h]; exact hlt
  · intro t ht
    simp only [keysOf, List.map_append, List.mem_append, List.map_cons, List.map_nil,
      List.mem_singleton] at ht
    rcases ht with h | h
    · exact h2 t h
    · subst h; exact k1
  · intro t ht
    simp only [valsOf, keysOf, List.map_append, List.mem_append, List.map_cons, List.map_nil,
      List.mem_singleton] at ht ⊢
    rcases ht with h | h
    · obtain ⟨hks, hkl⟩ := h3 t h
      push_neg
      exact ⟨⟨fun hc => hks hc, fun hc => k6 (by rw [← hc]; exact h)⟩, hkl⟩
    · subst h
      push_neg
      exact ⟨⟨fun hc => k7 hc, fun hc => absurd hc (by omega)⟩, k4⟩
  · intro t ht
    simp only [keysOf, List.map_append, List.mem_append, List.map_cons, List.map_nil,
      List.mem_singleton] at ht
    rcases ht with h | h
    · exact h4 t h
    · subst h; exact k3

theorem genLadders_inv (stream : Nat → Nat) : ∀ (fuel i : Nat) (L L' : List (Nat × Nat))
    (i' : Nat), LadInv L → genLadders stream fuel i L = some (L', i') → LadInv L'
  | 0, _, _, _, _, _, h => absurd h (by simp [genLadders])
  | fuel + 1, i, L, L', i', hInv, h => by
    unfold genLadders at h
    split at h
    · injection h with h
      rw [← (Prod.mk.injEq _ _ _ _).mp h |>.1]
      exact hInv
    · refine genLadders_inv stream fuel (i + 2) _ L' i' ?_ h
      split
      next hok =>
        have hs := randR_bounds 2 80 (stream i) (by omega)
        have he := randR_bounds (randR 2 80 (stream i) + 10) 94 (stream (i + 1)) (by omega)
        exact ladInv_insert L _ _ hInv hok (by omega)
      next => exact hInv

theorem genSnakes_inv (stream : Nat → Nat) (L : List (Nat × Nat)) :
    ∀ (fuel i : Nat) (S S' : List (Nat × Nat)) (i' : Nat),
    SnakeInv L S → genSnakes stream L fuel i S = some (S', i') → SnakeInv L S'
  | 0, _, _, _, _, _, h => absurd h (by simp [genSnakes])
  | fuel + 1, i, S, S', i', hInv, h => by
    unfold genSnakes at h
    split at h
    · injection h with h
      rw [← (Prod.mk.injEq _ _ _ _).mp h |>.1]
      exact hInv
    · refine genSnakes_inv stream L fuel (i + 2) _ S' i' ?_ h
      split
      next hok =>
        have hs := randR_bounds 15 97 (stream i) (by omega)
        have he := randR_bounds 2 (randR 15 97 (stream i) - 10) (stream (i + 1)) (by omega)
        exact snakeInv_insert L S _ _ hInv hok (by omega)
      next => exact hInv

theorem addDanger_inv (stream : Nat → Nat) (i : Nat) (L S : List (Nat × Nat))
    (hS : SnakeInv L S) : SnakeInv L (addDangerSnake stream i L S) := by
  unfold addDangerSnake
  dsimp only
  split
  next hok =>
    have hs := randR_bounds 98 99 (stream i) (by omega)
    have he := randR_bounds 50 (randR 98 99 (stream i) - 10) (stream (i + 1)) (by omega)
    exact snakeInv_insert L S _ _ hS hok (by omega)
  next => exact hS

-- --- claim theorems ---

/-- Claim C2: for every move action where current position plus `last_roll`
exceeds 100 — overshoot judged on the raw sum, before any snake/ladder
mapping is consulted — `positions` and `finished_pawns` are unchanged while
`phase` is reset to ROLL and `last_roll` is cleared. -/
theorem move_overshoot_frame (g : GameState) (req : ActionRequest) (g' : GameState)
    (pidx : Int) (r : Nat)
    (hp : req.pawn_index = some pidx) (hr : g.last_roll = some r)
    (hover : WINNING_TILE < rawLanding g pidx.toNat r)
    (hok : process_move_logic g req = .ok g') :
    g'.positions = g.positions ∧ g'.finished_pawns = g.finished_pawns ∧
    g'.phase = "ROLL" ∧ g'.last_roll = none := by
  obtain ⟨pidx2, r2, hp2, _, _, _, _, hr2, hg⟩ := move_ok_elim g req g' hok
  rw [hp] at hp2
  injection hp2 with hpe
  rw [hr] at hr2
  injection hr2 with hre
  subst hpe
  subst hre
  subst hg
  have hm := movePhase_overshoot g pidx.toNat r hover
  unfold moveCore
  dsimp only
  refine ⟨?_, ?_, rfl, rfl⟩
  · rw [advanceTurn_positions, checkWin_positions, hm.1]
  · rw [advanceTurn_finished, checkWin_finished, hm.2]

/-- Claim C2 witness: pawn at 97 with a rolled 6 (raw sum 103) stays put,
the other pawns and the finished flags are untouched, phase returns to ROLL
and the roll is cleared. -/
theorem move_overshoot_frame_witness :
    process_move_logic gW2 reqW2 = .ok gW2' ∧ gW2'.positions = gW2.positions ∧
    gW2'.finished_pawns = gW2.finished_pawns ∧ gW2'.phase = "ROLL" ∧
    gW2'.last_roll = none := by
  have h := move_overshoot_frame gW2 reqW2 gW2' 0 6 rfl rfl (by decide) rfl
  exact ⟨rfl, h.1, h.2.1, h.2.2.1, h.2.2.2⟩

/-- Claim C3: after a completed move that does not finish the game, the turn
flips to the other player exactly when the roll was not 6, and stays with the
same player when it was 6 (including overshoot moves, which reach the same
turn-advance code). -/
theorem move_turn_alternation (g : GameState) (req : ActionRequest) (g' : GameState)
    (hwf : WF g)
    (hok : process_move_logic g req = .ok g') (hnotfin : g'.status ≠ "finished") :
    (g.last_roll ≠ some 6 → g'.turn_index = 1 - g.turn_index ∧ g'.turn_index ≠ g.turn_index) ∧
    (g.last_roll = some 6 → g'.turn_index = g.turn_index) := by
  obtain ⟨pidx, r, hp, _, _, _, hfin, hr, hg⟩ := move_ok_elim g req g' hok
  subst hg
  have hstat : (moveCore g pidx.toNat r).status =
      (checkWin (movePhase g pidx.toNat r)).status := by
    show (advanceTurn (checkWin (movePhase g pidx.toNat r))).status = _
    rw [advanceTurn_status]
  have hcw_notfin : (checkWin (movePhase g pidx.toNat r)).status ≠ "finished" := by
    rw [← hstat]
    exact hnotfin
  have hturn_eq : (moveCore g pidx.toNat r).turn_index =
      (advanceTurn (checkWin (movePhase g pidx.toNat r))).turn_index := rfl
  have hlr : (checkWin (movePhase g pidx.toNat r)).last_roll = g.last_roll := by
    rw [checkWin_last_roll, movePhase_last_roll]
  have hturncw : (checkWin (movePhase g pidx.toNat r)).turn_index = g.turn_index := by
    rw [checkWin_turn, movePhase_turn]
  constructor
  · intro h6
    have hadv := advanceTurn_turn_of_not6 _ hcw_notfin (by rw [hlr]; exact h6)
    have ht2 := hwf.1
    constructor
    · rw [hturn_eq, hadv, hturncw]
    · rw [hturn_eq, hadv, hturncw]
      omega
  · intro h6
    have hadv := advanceTurn_turn_of_6 _ hcw_notfin (by rw [hlr]; exact h6)
    rw [hturn_eq, hadv, hturncw]

/-- Claim C3 witness: player 0 moves with a rolled 3, the game does not end,
and the turn flips from 0 to 1. -/
theorem move_turn_alternation_witness :
    WF gW3 ∧ process_move_logic gW3 reqW3 = .ok gW3' ∧ gW3'.status ≠ "finished" ∧
    gW3.last_roll ≠ some 6 ∧ gW3'.turn_index = 1 ∧ gW3.turn_index = 0 := by
  have h := move_turn_alternation gW3 reqW3 gW3' (by decide) rfl (by decide)
  refine ⟨by decide, rfl, by decide, by decide, ?_, rfl⟩
  have he := (h.1 (by decide)).1
  rw [he]
  rfl

/-- Claim C4: a move whose raw landing tile (at most 100) is a start in the
snakes or ladders mapping relocates the pawn to the mapped end tile within
the same action — `applyJump` consults snakes before ladders — and the
pawn-finish flag is set from this final post-mapping tile, not the raw one. -/
theorem move_snake_ladder_redirect (g : GameState) (req : ActionRequest) (g' : GameState)
    (pidx : Int) (r : Nat) (hwf : WF g)
    (hp : req.pawn_index = some pidx) (hr : g.last_roll = some r)
    (hnoover : ¬ WINNING_TILE < rawLanding g pidx.toNat r)
    (hok : process_move_logic g req = .ok g') :
    (g'.positions.getD g.turn_index []).getD pidx.toNat 0 =
      applyJump g.board_config (rawLanding g pidx.toNat r) ∧
    (∀ e, lookupB g.board_config.snakes (rawLanding g pidx.toNat r) = some e →
      applyJump g.board_config (rawLanding g pidx.toNat r) = e) ∧
    (∀ e, lookupB g.board_config.snakes (rawLanding g pidx.toNat r) = none →
      lookupB g.board_config.ladders (rawLanding g pidx.toNat r) = some e →
      applyJump g.board_config (rawLanding g pidx.toNat r) = e) ∧
    ((g'.finished_pawns.getD g.turn_index []).getD pidx.toNat false = true ↔
      applyJump g.board_config (rawLanding g pidx.toNat r) = WINNING_TILE) := by
  obtain ⟨pidx2, r2, hp2, _, _, hrange, hfin, hr2, hg⟩ := move_ok_elim g req g' hok
  rw [hp] at hp2
  injection hp2 with hpe
  rw [hr] at hr2
  injection hr2 with hre
  subst hpe
  subst hre
  subst hg
  obtain ⟨ht2, hl2, hf2, hrowp, hrowf⟩ := hwf
  have hpi3 : pidx.toNat < PAWNS_PER_PLAYER := by
    unfold PAWNS_PER_PLAYER at hrange ⊢
    omega
  have htP : g.turn_index < g.positions.length := by omega
  have htF : g.turn_index < g.finished_pawns.length := by omega
  have hrowP : pidx.toNat < (g.positions.getD g.turn_index []).length := by
    rw [hrowp _ ht2]
    exact hpi3
  have hrowF : pidx.toNat < (g.finished_pawns.getD g.turn_index []).length := by
    rw [hrowf _ ht2]
    exact hpi3
  have epos : (moveCore g pidx.toNat r).positions = (movePhase g pidx.toNat r).positions := by
    show (advanceTurn (checkWin (movePhase g pidx.toNat r))).positions = _
    rw [advanceTurn_positions, checkWin_positions]
  have efin : (moveCore g pidx.toNat r).finished_pawns =
      (movePhase g pidx.toNat r).finished_pawns := by
    show (advanceTurn (checkWin (movePhase g pidx.toNat r))).finished_pawns = _
    rw [advanceTurn_finished, checkWin_finished]
  unfold rawLanding
  unfold rawLanding at hnoover
  refine ⟨?_, ?_, ?_, ?_⟩
  · rw [epos, movePhase_normal_pos g pidx.toNat r hnoover,
      getD_set_eq g.positions _ _ _ htP,
      getD_set_eq (g.positions.getD g.turn_index []) _ _ _ hrowP]
  · intro e he
    unfold applyJump
    rw [he]
  · intro e he1 he2
    unfold applyJump
    rw [he1, he2]
  · rw [efin, movePhase_normal_fin g pidx.toNat r hnoover]
    by_cases hfinal : applyJump g.board_config
        ((g.positions.getD g.turn_index []).getD pidx.toNat 0 + r) = WINNING_TILE
    · rw [if_pos hfinal, getD_set_eq g.finished_pawns _ _ _ htF,
        getD_set_eq (g.finished_pawns.getD g.turn_index []) _ _ _ hrowF]
      exact ⟨fun _ => hfinal, fun _ => rfl⟩
    · rw [if_neg hfinal, hfin]
      exact ⟨fun h => Bool.noConfusion h, fun h => absurd h hfinal⟩

/-- Claim C4 witness: the spec scenario — `snakes = {"20": 5}`, pawn at 18,
roll 2 — lands the pawn on 5, not 20, and does not finish it. -/
theorem move_snake_ladder_redirect_witness :
    process_move_logic gW4 reqW4 = .ok gW4' ∧
    (gW4'.positions.getD 0 []).getD 0 0 = 5 ∧
    (gW4'.finished_pawns.getD 0 []).getD 0 false = false := by
  have h := move_snake_ladder_redirect gW4 reqW4 gW4' 0 2 (by decide) rfl rfl (by decide) rfl
  exact ⟨rfl, h.1.trans (by decide), by decide⟩

/-- Claim C1: a completed move by the acting player leaves the game finished
exactly when all of that player's pawns sit on tile 100, and in that case the
winner is the acting player's index and the turn is not advanced. -/
theorem move_win_detection (g : GameState) (req : ActionRequest) (g' : GameState)
    (hInv : Inv g) (hplay : g.status = "playing")
    (hok : process_move_logic g req = .ok g') :
    (g'.status = "finished" ↔
      ∀ i < PAWNS_PER_PLAYER, (g'.positions.getD g.turn_index []).getD i 0 = 100) ∧
    (g'.status = "finished" → g'.winner = some g.turn_index ∧ g'.turn_index = g.turn_index) := by
  obtain ⟨pidx, r, hp, _, _, hrange, hfin, hr, hg⟩ := move_ok_elim g req g' hok
  subst hg
  obtain ⟨hwf, hfi⟩ := hInv
  obtain ⟨ht2, hl2, hf2, hrowp, hrowf⟩ := hwf
  have hpi3 : pidx.toNat < PAWNS_PER_PLAYER := by
    unfold PAWNS_PER_PLAYER at hrange ⊢
    omega
  have hInvm : Inv (movePhase g pidx.toNat r) :=
    ⟨wf_movePhase g pidx.toNat r ⟨ht2, hl2, hf2, hrowp, hrowf⟩,
     finishedInv_movePhase g pidx.toNat r ⟨⟨ht2, hl2, hf2, hrowp, hrowf⟩, hfi⟩ hpi3 hfin⟩
  have hmt : (movePhase g pidx.toNat r).turn_index = g.turn_index := movePhase_turn g pidx.toNat r
  have hms : (movePhase g pidx.toNat r).status = g.status := movePhase_status g pidx.toNat r
  have epos : (moveCore g pidx.toNat r).positions = (movePhase g pidx.toNat r).positions := by
    show (advanceTurn (checkWin (movePhase g pidx.toNat r))).positions = _
    rw [advanceTurn_positions, checkWin_positions]
  have hlenf : ((movePhase g pidx.toNat r).finished_pawns.getD g.turn_index []).length =
      PAWNS_PER_PLAYER := hInvm.1.2.2.2.2 g.turn_index ht2
  by_cases hall : ((movePhase g pidx.toNat r).finished_pawns.getD g.turn_index []).all id = true
  · have hcw := checkWin_of_all (movePhase g pidx.toNat r) (by rw [hmt]; exact hall)
    have hstatus : (moveCore g pidx.toNat r).status = "finished" := by
      show (advanceTurn (checkWin (movePhase g pidx.toNat r))).status = _
      rw [advanceTurn_status]
      exact hcw.1
    refine ⟨⟨fun _ i hi => ?_, fun _ => hstatus⟩, fun _ => ⟨?_, ?_⟩⟩
    · have hfirow : ((movePhase g pidx.toNat r).finished_pawns.getD g.turn_index []).getD i
          false = true :=
        (all_getD _).mp hall i (by rw [hlenf]; exact hi)
      have hpos := (hInvm.2 g.turn_index ht2 i hi).mp hfirow
      rw [epos]
      exact hpos
    · show (advanceTurn (checkWin (movePhase g pidx.toNat r))).winner = some g.turn_index
      rw [advanceTurn_winner, hcw.2, hmt]
    · show (advanceTurn (checkWin (movePhase g pidx.toNat r))).turn_index = g.turn_index
      rw [advanceTurn_of_finished _ hcw.1, checkWin_turn, hmt]
  · have hcw : checkWin (movePhase g pidx.toNat r) = movePhase g pidx.toNat r :=
      checkWin_of_not_all (movePhase g pidx.toNat r) (by rw [hmt]; exact hall)
    have hstatus : (moveCore g pidx.toNat r).status = "playing" := by
      show (advanceTurn (checkWin (movePhase g pidx.toNat r))).status = _
      rw [advanceTurn_status, hcw, hms, hplay]
    constructor
    · constructor
      · intro habs
        rw [hstatus] at habs
        exact absurd habs (by decide)
      · intro hposall
        exfalso
        apply hall
        apply (all_getD _).mpr
        intro i hi
        have hi3 : i < PAWNS_PER_PLAYER := by rw [← hlenf]; exact hi
        apply (hInvm.2 g.turn_index ht2 i hi3).mpr
        have := hposall i hi3
        rw [epos] at this
        exact this
    · intro habs
      rw [hstatus] at habs
      exact absurd habs (by decide)

/-- Claim C1 witness: with two pawns already home and the third moving from
97 to 100, the game finishes, the winner is player 0 and the turn stays 0. -/
theorem move_win_detection_witness :
    Inv gW1 ∧ gW1.status = "playing" ∧ process_move_logic gW1 reqW1 = .ok gW1' ∧
    gW1'.status = "finished" ∧ gW1'.winner = some 0 ∧ gW1'.turn_index = 0 := by
  have h := move_win_detection gW1 reqW1 gW1' (by decide) rfl rfl
  refine ⟨by decide, rfl, rfl, ?_, ?_, ?_⟩
  · exact h.1.mpr (by decide)
  · exact (h.2 (h.1.mpr (by decide))).1
  · exact (h.2 (h.1.mpr (by decide))).2

/-- Claim C5 failing input: on `gC5` with a rolled 2, pawn 1 has the strictly
highest priority (100, a ladder) and no pawn is finished, yet the selection
loop returns pawn 0 (priority 0): the loop's final `else` branch resets the
running best to index 0 whenever a later candidate scores strictly below the
maximum, discarding the better pawn found earlier. -/
theorem selectPawn_resets_best_to_zero :
    selectPawn gC5 2 = 0 ∧ pawnPriority gC5 2 1 = 100 ∧
    pawnPriority gC5 2 0 = 0 ∧ pawnPriority gC5 2 2 = 0 ∧
    (gC5.finished_pawns.getD 1 []).getD 0 false = false ∧
    (gC5.finished_pawns.getD 1 []).getD 1 false = false ∧
    (gC5.finished_pawns.getD 1 []).getD 2 false = false := by
  refine ⟨rfl, by decide, by decide, by decide, rfl, rfl, rfl⟩

/-- Claim C6 failing input: on the seed stream `streamC6` every general
candidate is accepted at once but the single danger-snake draw (98, 50)
collides with the existing snake start 50 and is silently dropped — the
insertion at lines 119-131 is one `if`, not a resampling loop — so the
returned board has only 4 snakes and none starting in [98, 99]. -/
theorem generate_board_missing_danger_snake :
    generate_board streamC6 30 = some bC6 ∧ bC6.snakes.length = 4 ∧
    bC6.snakes.filter (fun p => decide (98 ≤ p.1)) = [] := by
  refine ⟨by decide, rfl, rfl⟩

/-- Claim C7: every board the generator returns satisfies the structural
invariants: no tile is a start in both mappings, snake ends are strictly
below their starts, ladder ends strictly above, and no end tile of either
mapping is also a start tile of either mapping. -/
theorem generate_board_invariants (stream : Nat → Nat) (fuel : Nat) (b : Board)
    (h : generate_board stream fuel = some b) : boardInv b := by
  unfold generate_board at h
  split at h
  · exact (Option.noConfusion h)
  next L i hgl =>
    split at h
    · exact (Option.noConfusion h)
    next S j hgs =>
      injection h with h
      have hL : LadInv L :=
        genLadders_inv stream fuel 0 [] L i
          ⟨fun p hp => absurd hp (List.not_mem_nil p),
           fun t ht => absurd ht (List.not_mem_nil t)⟩ hgl
      have hS0 : SnakeInv L S :=
        genSnakes_inv stream L fuel i [] S j
          ⟨fun p hp => absurd hp (List.not_mem_nil p),
           fun t ht => absurd ht (List.not_mem_nil t),
           fun t ht => absurd ht (List.not_mem_nil t),
           fun t ht => absurd ht (List.not_mem_nil t)⟩ hgs
      have hS : SnakeInv L (addDangerSnake stream j L S) := addDanger_inv stream j L S hS0
      rw [← h]
      obtain ⟨s1, s2, s3, s4⟩ := hS
      obtain ⟨l1, l2⟩ := hL
      exact ⟨s2, s1, l1, s3, fun t ht => ⟨fun hc => s4 t hc ht, l2 t ht⟩⟩

/-- Claim C7 witness: on the seed stream `streamC7` the generator returns the
concrete board `bC7` (5 snakes, danger snake (99, 55) included), and it
satisfies all the invariants. -/
theorem generate_board_invariants_witness :
    generate_board streamC7 30 = some bC7 ∧ boardInv bC7 :=
  ⟨by decide, generate_board_invariants streamC7 30 bC7 (by decide)⟩

/-- Claim C8: a successful roll stores the face `rollOf req seed rq`; with an
absent or empty bias the face is `1 + seed % 6`, always in 1..6 and hitting
each face on exactly one residue class of the seed (a uniform draw); with a
non-empty bias the face is always one of the bias's keys; and the weighted
sampler `choicesW` picks index `i` exactly on the sub-interval of sample
points whose length is the `i`-th weight — i.e. with probability proportional
to the supplied weights, which need not sum to 1. -/
theorem roll_dice_model (g : GameState) (req : ActionRequest) (seed : Nat) (rq : Rat)
    (g' : GameState) (hok : process_roll_logic g req seed rq = .ok g') :
    g'.last_roll = some (rollOf req seed rq) ∧
    ((req.dice_prob = none ∨ req.dice_prob = some []) →
      rollOf req seed rq = 1 + seed % 6 ∧
      1 ≤ rollOf req seed rq ∧ rollOf req seed rq ≤ 6 ∧
      (∀ f, 1 ≤ f → f ≤ 6 → (rollOf req seed rq = f ↔ seed % 6 = f - 1))) ∧
    (∀ l, req.dice_prob = some l → l ≠ [] →
      rollOf req seed rq = choicesW (l.map Prod.fst) (l.map Prod.snd) rq ∧
      rollOf req seed rq ∈ l.map Prod.fst) ∧
    (∀ (vals : List Nat) (ws : List Rat) (i : Nat) (r : Rat),
      i < vals.length → ws.length = vals.length → (∀ w ∈ ws, 0 ≤ w) →
      (ws.take i).sum ≤ r → r < (ws.take (i + 1)).sum →
      choicesW vals ws r = vals.getD i 0) := by
  obtain ⟨_, _, _, hg⟩ := roll_ok_elim g req seed rq g' hok
  refine ⟨by rw [hg], ?_, ?_, choicesW_interval⟩
  · intro hempty
    have he : rollOf req seed rq = randR 1 6 seed := by
      rcases hempty with h | h <;> simp [rollOf, h]
    have hmod : seed % 6 < 6 := Nat.mod_lt seed (by omega)
    refine ⟨by rw [he]; rfl, ?_, ?_, ?_⟩
    · rw [he]; unfold randR; omega
    · rw [he]; unfold randR; omega
    · intro f h1 h6
      rw [he]
      exact randR_one_six seed f h1 h6
  · intro l hl hne
    have he : rollOf req seed rq = choicesW (l.map Prod.fst) (l.map Prod.snd) rq := by
      simp [rollOf, hl, hne]
    refine ⟨he, ?_⟩
    rw [he]
    exact choicesW_mem (l.map Prod.fst) (l.map Prod.snd) rq (by simpa using hne)

/-- Claim C8 witness: with bias `{2: 1, 5: 3}` and sample point 2 the roll
stores face 5, one of the bias's keys. -/
theorem roll_dice_model_witness :
    process_roll_logic gW8 reqW8 0 2 = .ok gW8' ∧ gW8'.last_roll = some 5 ∧
    5 ∈ ([(2, (1 : Rat)), (5, 3)].map Prod.fst) := by
  have h := roll_dice_model gW8 reqW8 0 2 gW8' rfl
  refine ⟨rfl, ?_, by decide⟩
  exact h.1.trans (by decide)

/-- Claim C9: on an unknown room identifier, `/roll` and `/move` report
"Room not found" as HTTP 404, but the polling endpoint `/state/{room_id}`
dereferences `game.players` before its `None` check and raises an unhandled
`AttributeError` instead of reporting the error. -/
theorem get_state_room_not_found_crash :
    get_state id none = ApiOutcome.crash "AttributeError: NoneType object has no attribute players" ∧
    get_state id none ≠ ApiOutcome.httpError 404 "Room not found" ∧
    roll_dice none reqW9 0 0 = ApiOutcome.httpError 404 "Room not found" ∧
    move_pawn none reqW9 = ApiOutcome.httpError 404 "Room not found" := by
  refine ⟨rfl, by decide, rfl, rfl⟩

/-- Claim C10: every game state reachable from room creation through join and
successful roll/move actions has parallel `positions`/`finished_pawns` of
fixed shape, and a pawn's finished flag is true exactly when its position is
tile 100. -/
theorem reachable_finished_inv (g : GameState) (h : Reachable g) : Inv g := by
  induction h with
  | create rid tok bd => exact inv_create rid tok bd
  | join g tok g' _ hok ih => exact inv_join g tok g' hok ih
  | roll g req seed rq g' _ hok ih => exact inv_roll g req seed rq g' hok ih
  | move g req g' _ hok ih => exact inv_move g req g' hok ih

/-- Claim C10 witness: the freshly created room state satisfies the
invariant. -/
theorem reachable_finished_inv_witness : Inv (create_game "ROOM" "tok" bdW10) :=
  reachable_finished_inv _ (Reachable.create "ROOM" "tok" bdW10)

end SnakeLadder
